import Mathlib

/-!
Verification of the Hunter-vs-Hunted relay (worker.js) and the client-side
visibility and outcome engine (app.js) against the natural-language spec.

The relay is modelled as pure functions over association lists mirroring the
JavaScript `Map` objects (`gameData : gameCode -> (playerId -> PlayerData)`,
`rateLimitMap : ip -> RateEntry`).  Machine numbers are modelled as exact
rationals and integers (the source does no overflowing arithmetic).
-/

namespace Hunters

/-! ## Worker configuration (worker.js CONFIG) -/

/-- worker.js: `MAX_POSITION_AGE: 15 * 60 * 1000` (milliseconds). -/
def MAX_POSITION_AGE : ℤ := 15 * 60 * 1000

/-- worker.js: `RATE_LIMIT: 60` requests per IP per minute. -/
def RATE_LIMIT : ℕ := 60

/-! ## Association-list model of JavaScript `Map` -/

/-- `Map.get`: first binding of the key, if any. -/
def mapGet {α : Type} (m : List (String × α)) (k : String) : Option α :=
  match m with
  | [] => none
  | (k', v') :: rest => if k' = k then some v' else mapGet rest k

/-- `Map.set`: replace the value at an existing key in place (JavaScript `Map`
keeps the original insertion slot), else append a new binding. -/
def mapSet {α : Type} (m : List (String × α)) (k : String) (v : α) :
    List (String × α) :=
  match m with
  | [] => [(k, v)]
  | (k', v') :: rest => if k' = k then (k', v) :: rest else (k', v') :: mapSet rest k v

/-- Keys of a map, in insertion order. -/
def keys {α : Type} (m : List (String × α)) : List String :=
  m.map Prod.fst

/-! ## Worker data model -/

/-- A stored player record (the object built at worker.js lines 143-152). -/
structure PlayerData where
  playerId : String
  playerName : String
  role : String
  gameCode : String
  lat : ℚ
  lon : ℚ
  accuracy : ℚ
  timestamp : ℤ
deriving DecidableEq

/-- The body of a `POST /updateLocation` request.  The seven required fields
are present (the handler's missing-field check rejects otherwise); `accuracy`
is not in the required list, so it may be absent (`none`). -/
structure UpdateRequest where
  playerId : String
  playerName : String
  role : String
  gameCode : String
  lat : ℚ
  lon : ℚ
  accuracy : Option ℚ
  timestamp : ℤ
deriving DecidableEq

/-- `gameCode -> playerData` map of one game. -/
abbrev GameMap := List (String × PlayerData)

/-- `gameData : gameCode -> Map of playerId -> playerData` (worker.js line 20). -/
abbrev GameData := List (String × GameMap)

/-- One entry of the rate-limit map: `{ count, resetTime }` (worker.js line 23). -/
structure RateEntry where
  count : ℕ
  resetTime : ℤ
deriving DecidableEq

/-- `rateLimitMap : IP -> { count, resetTime }`. -/
abbrev RateMap := List (String × RateEntry)

/-! ## Worker helper functions -/

/-- JavaScript `x || d` on an optional number: `undefined`/`null` and `0` are
falsy, every other number is truthy. -/
def jsOr (a : Option ℚ) (d : ℚ) : ℚ :=
  match a with
  | none => d
  | some x => if x = 0 then d else x

/-- `String(data.gameCode).toUpperCase().slice(0, 10)` (worker.js line 131),
written over the character list so it evaluates by kernel reduction. -/
def sanitizeGameCode (s : String) : String :=
  String.mk ((s.data.map Char.toUpper).take 10)

/-- `String(data.playerId).slice(0, 50)` (worker.js line 132). -/
def sanitizePlayerId (s : String) : String :=
  String.mk (s.data.take 50)

/-- `String(data.playerName).slice(0, 20)` (worker.js line 133). -/
def sanitizePlayerName (s : String) : String :=
  String.mk (s.data.take 20)

/-- `checkRateLimit(ip)` (worker.js lines 49-72), with `Date.now()` passed
explicitly.  Returns the boolean decision and the updated rate-limit map. -/
def checkRateLimit (m : RateMap) (ip : String) (now : ℤ) : Bool × RateMap :=
  match mapGet m ip with
  | none => (true, mapSet m ip ⟨1, now + 60000⟩)
  | some limit =>
    if now > limit.resetTime then
      (true, mapSet m ip ⟨1, now + 60000⟩)
    else if limit.count ≥ RATE_LIMIT then
      (false, m)
    else
      (true, mapSet m ip ⟨limit.count + 1, limit.resetTime⟩)

/-- The game-data half of `cleanOldData()` (worker.js lines 78-90): delete
every player whose stored timestamp is `< cutoff`, then drop games left with
no players. -/
def cleanGames (gd : GameData) (cutoff : ℤ) : GameData :=
  (gd.map (fun g => (g.1, g.2.filter (fun e => decide (¬ e.2.timestamp < cutoff))))).filter
    (fun g => decide (¬ g.2 = []))

/-- `cleanOldData()` (worker.js lines 74-98): sweep old positions, drop empty
games, and drop expired rate-limit entries. -/
def cleanOldData (gd : GameData) (rl : RateMap) (now : ℤ) : GameData × RateMap :=
  (cleanGames gd (now - MAX_POSITION_AGE),
   rl.filter (fun e => decide (¬ now > e.2.resetTime)))

/-! ## Worker API handlers -/

/-- Outcome of `handleUpdateLocation`. -/
inductive UpdateResult where
  | ok (playerCount : ℕ)
  | validationError (msg : String)
deriving DecidableEq

/-- The record stored for a validated request (worker.js lines 143-152).
Note `timestamp: data.timestamp` — the caller-supplied value is stored;
the handler never consults the relay's clock. -/
def recordOf (req : UpdateRequest) : PlayerData :=
  { playerId := sanitizePlayerId req.playerId
    playerName := sanitizePlayerName req.playerName
    role := req.role
    gameCode := sanitizeGameCode req.gameCode
    lat := req.lat
    lon := req.lon
    accuracy := jsOr req.accuracy 0
    timestamp := req.timestamp }

/-- `handleUpdateLocation` (worker.js lines 101-168), after the JSON parse and
missing-field checks: range-validate `lat`/`lon`, validate `role`, then store
the sanitized record and answer with the game's player count.  Returns the
result and the updated `gameData`. -/
def handleUpdateLocation (gd : GameData) (req : UpdateRequest) :
    UpdateResult × GameData :=
  if req.lat < -90 ∨ req.lat > 90 then
    (.validationError ("Invalid latitude"), gd)
  else if req.lon < -180 ∨ req.lon > 180 then
    (.validationError ("Invalid longitude"), gd)
  else if ¬ (req.role = ("hunter") ∨ req.role = ("hunted")) then
    (.validationError ("Invalid role"), gd)
  else
    let gameCode := sanitizeGameCode req.gameCode
    let game := (mapGet gd gameCode).getD []
    let game' := mapSet game (sanitizePlayerId req.playerId) (recordOf req)
    (.ok game'.length, mapSet gd gameCode game')

/-- `handleGetLocations` (worker.js lines 170-207): the stored records of the
sanitized game code, or an empty list for an unknown code. -/
def handleGetLocations (gd : GameData) (gameCode : String) : List PlayerData :=
  match mapGet gd (sanitizeGameCode gameCode) with
  | none => []
  | some game => game.map Prod.snd

/-- A routed request (the two data endpoints of worker.js). -/
inductive ApiRequest where
  | updateLocation (req : UpdateRequest)
  | locations (gameCode : String)
deriving DecidableEq

/-- A response, abstracting status code and JSON body. -/
inductive ApiResponse where
  | okUpdate (playerCount : ℕ)
  | okLocations (locs : List PlayerData)
  | badRequest (msg : String)
  | rateLimited
deriving DecidableEq

/-- The worker's two global maps. -/
structure WorkerState where
  gameData : GameData
  rateLimitMap : RateMap
deriving DecidableEq

/-- `handleRequest` (worker.js lines 225-269) for the data endpoints: check
the rate limit first (a throttled request is answered 429 and touches nothing
else), then run `cleanOldData`, then route. -/
def handleRequest (s : WorkerState) (ip : String) (now : ℤ) (req : ApiRequest) :
    ApiResponse × WorkerState :=
  let rlRes := checkRateLimit s.rateLimitMap ip now
  if rlRes.1 = false then
    (ApiResponse.rateLimited, ⟨s.gameData, rlRes.2⟩)
  else
    let cleaned := cleanOldData s.gameData rlRes.2 now
    match req with
    | .updateLocation u =>
      let res := handleUpdateLocation cleaned.1 u
      (match res.1 with
       | .ok n => ApiResponse.okUpdate n
       | .validationError msg => ApiResponse.badRequest msg,
       ⟨res.2, cleaned.2⟩)
    | .locations gc =>
      (ApiResponse.okLocations (handleGetLocations cleaned.1 gc),
       ⟨cleaned.1, cleaned.2⟩)

/-! ## Client engine configuration (app.js CONFIG) -/

/-- app.js: `POSITION_DELAY: 120000` — 2 minutes in milliseconds. -/
def POSITION_DELAY : ℤ := 120000

/-- app.js: `GAME_DURATION: 600000` — 10 minutes in milliseconds. -/
def GAME_DURATION : ℤ := 600000

/-- app.js: `CAPTURE_DISTANCE: 50` meters. -/
def CAPTURE_DISTANCE : ℝ := 50

/-! ## Client engine data model -/

/-- One element of the `locations` array the client receives from the relay
(as consumed by `updateOtherPlayers`). -/
structure Entry where
  playerId : String
  playerName : String
  role : String
  lat : ℝ
  lon : ℝ
  timestamp : ℤ

/-- `gameState.lastPosition` (app.js lines 161-166). -/
structure OwnPos where
  lat : ℝ
  lon : ℝ
  accuracy : ℝ
  timestamp : ℤ

/-- The session-relevant part of `gameState` (app.js lines 12-27). -/
structure Session where
  playerId : String
  playerName : String
  playerRole : String
  startTime : ℤ
  lastPosition : Option OwnPos

/-- The outcome-relevant part of the client UI: whether the session is still
active and, once `endGame` ran, the reason and message shown on the end
screen. -/
structure UIState where
  isActive : Bool
  endReason : Option String
  endMessage : Option String
deriving DecidableEq

/-- The UI of a running session: active, no end screen yet. -/
def activeUI : UIState :=
  { isActive := true, endReason := none, endMessage := none }

/-- `endGame(reason, message)` (app.js lines 420-447): deactivate the session
and fill the end screen.  Each call overwrites the previously shown reason
and message. -/
def endGame (_ui : UIState) (reason msg : String) : UIState :=
  { isActive := false, endReason := some reason, endMessage := some msg }

/-! ## Haversine distance (app.js `calculateDistance`) -/

/-- JavaScript `Math.atan2(y, x)` over the reals. -/
noncomputable def atan2 (y x : ℝ) : ℝ :=
  if 0 < x then Real.arctan (y / x)
  else if x < 0 then
    if 0 ≤ y then Real.arctan (y / x) + Real.pi
    else Real.arctan (y / x) - Real.pi
  else
    if 0 < y then Real.pi / 2
    else if y < 0 then -(Real.pi / 2)
    else 0

/-- `calculateDistance(lat1, lon1, lat2, lon2)` (app.js lines 44-57):
haversine great-circle distance with Earth radius 6 371 000 m. -/
noncomputable def calculateDistance (lat1 lon1 lat2 lon2 : ℝ) : ℝ :=
  let R : ℝ := 6371000
  let φ1 := lat1 * Real.pi / 180
  let φ2 := lat2 * Real.pi / 180
  let Δφ := (lat2 - lat1) * Real.pi / 180
  let Δlam := (lon2 - lon1) * Real.pi / 180
  let a := Real.sin (Δφ / 2) * Real.sin (Δφ / 2) +
      Real.cos φ1 * Real.cos φ2 * (Real.sin (Δlam / 2) * Real.sin (Δlam / 2))
  let c := 2 * atan2 (Real.sqrt a) (Real.sqrt (1 - a))
  R * c

/-! ## Visibility filter and capture evaluation (app.js `updateOtherPlayers`) -/

/-- The opposite-role test of app.js lines 261-263. -/
def isOpponent (sessionRole entryRole : String) : Prop :=
  (sessionRole = ("hunter") ∧ entryRole = ("hunted")) ∨
  (sessionRole = ("hunted") ∧ entryRole = ("hunter"))

instance (a b : String) : Decidable (isOpponent a b) := by
  unfold isOpponent; infer_instance

/-- The three skip-tests of the `forEach` body of `updateOtherPlayers`
(app.js lines 256-274): an entry survives iff it is not self, is
opposite-role, and its age `now - timestamp` has reached `POSITION_DELAY`. -/
def filterVisibleOpponents (locations : List Entry) (s : Session) (now : ℤ) :
    List Entry :=
  locations.filter (fun p =>
    decide (¬ p.playerId = s.playerId ∧ isOpponent s.playerRole p.role ∧
      ¬ now - p.timestamp < POSITION_DELAY))

/-- The victory message of app.js line 309. -/
def captureMsg (p : Entry) : String :=
  ("You captured ") ++ p.playerName ++ ("!")

open Classical in
/-- One iteration of the `forEach` body of `updateOtherPlayers` (app.js lines
256-312), restricted to its effect on the outcome state: skip self, skip
same-team, skip entries younger than the delay, and for hunters with an
accepted own position fire `endGame('victory', ...)` when the haversine
distance is within `CAPTURE_DISTANCE`. -/
noncomputable def processEntry (s : Session) (now : ℤ) (ui : UIState) (p : Entry) :
    UIState :=
  if p.playerId = s.playerId then ui
  else if ¬ isOpponent s.playerRole p.role then ui
  else if now - p.timestamp < POSITION_DELAY then ui
  else if s.playerRole = ("hunter") then
    match s.lastPosition with
    | some own =>
      if calculateDistance own.lat own.lon p.lat p.lon ≤ CAPTURE_DISTANCE then
        endGame ui ("victory") (captureMsg p)
      else ui
    | none => ui
  else ui

/-- `updateOtherPlayers(locations)` (app.js lines 249-325), restricted to its
effect on the outcome state: the `forEach` visits every entry in snapshot
order. -/
noncomputable def updateOtherPlayers (locations : List Entry) (s : Session)
    (now : ℤ) (ui : UIState) : UIState :=
  locations.foldl (processEntry s now) ui

/-- `updateTimer()` (app.js lines 353-373), restricted to its effect on the
outcome state: fire `endGame('timeout', ...)` when the remaining time
`GAME_DURATION - (now - startTime)` has reached zero. -/
def updateTimer (startTime now : ℤ) (ui : UIState) : UIState :=
  if GAME_DURATION - (now - startTime) ≤ 0 then
    endGame ui ("timeout") (("Time\x27s up! Hunted players survived."))
  else ui

/-! ## Derived predicates used in the statements -/

/-- A request that passes the three range and enum validations of
`handleUpdateLocation` (worker.js lines 117-128). -/
def ValidReq (req : UpdateRequest) : Prop :=
  ¬ (req.lat < -90 ∨ req.lat > 90) ∧ ¬ (req.lon < -180 ∨ req.lon > 180) ∧
    (req.role = ("hunter") ∨ req.role = ("hunted"))

instance (req : UpdateRequest) : Decidable (ValidReq req) := by
  unfold ValidReq; infer_instance

/-- Well-formedness of one game partition: the player keys are distinct (true
of every JavaScript `Map`) and each stored record's `playerId` field equals
its key (true of every record `handleUpdateLocation` stores). -/
def PartWF (g : GameMap) : Prop :=
  (keys g).Nodup ∧ ∀ e ∈ g, (e.2).playerId = e.1

instance (g : GameMap) : Decidable (PartWF g) := by
  unfold PartWF; infer_instance

/-- Driver feeding a sequence of `(ip, time)` requests through
`checkRateLimit`, returning the final map and the per-request decisions. -/
def simulate : RateMap → List (String × ℤ) → RateMap × List Bool
  | m, [] => (m, [])
  | m, (ip, t) :: rest =>
    ((simulate (checkRateLimit m ip t).2 rest).1,
     (checkRateLimit m ip t).1 :: (simulate (checkRateLimit m ip t).2 rest).2)

/-- The capture condition of app.js lines 299-311 for one snapshot entry:
the local player is a hunter with an accepted own position and the entry is
within `CAPTURE_DISTANCE` of it. -/
def Captures (s : Session) (p : Entry) : Prop :=
  s.playerRole = ("hunter") ∧ ∃ own, s.lastPosition = some own ∧
    calculateDistance own.lat own.lon p.lat p.lon ≤ CAPTURE_DISTANCE

/-- A snapshot entry for which the `forEach` body of `updateOtherPlayers`
reaches `endGame('victory', ...)`: it passes the self, team and age filters
and satisfies the capture condition. -/
def Qualifies (s : Session) (now : ℤ) (p : Entry) : Prop :=
  ¬ p.playerId = s.playerId ∧ isOpponent s.playerRole p.role ∧
    ¬ now - p.timestamp < POSITION_DELAY ∧ Captures s p

open Classical in
/-- The sublist of snapshot entries that fire `endGame('victory', ...)`, in
snapshot order. -/
noncomputable def qualifying (s : Session) (now : ℤ) (locs : List Entry) :
    List Entry :=
  locs.filter (fun p => decide (Qualifies s now p))

/-! ## Concrete inputs used by witnesses and counterexamples -/

/-- A valid update request whose caller-supplied timestamp is 5. -/
def treq : UpdateRequest :=
  { playerId := ("p1"), playerName := ("Phil"), role := ("hunter"),
    gameCode := ("testgame"), lat := 10, lon := 20, accuracy := some 5,
    timestamp := 5 }

/-- An update request with latitude 91, out of range. -/
def badReq : UpdateRequest :=
  { playerId := ("p2"), playerName := ("Eve"), role := ("hunter"),
    gameCode := ("bad"), lat := 91, lon := 0, accuracy := none,
    timestamp := 0 }

/-- A valid update request with the accuracy field absent. -/
def vreq : UpdateRequest :=
  { playerId := ("p3"), playerName := ("Kim"), role := ("hunted"),
    gameCode := ("abc"), lat := 1, lon := 2, accuracy := none,
    timestamp := 7 }

/-- A valid update request carrying a negative accuracy. -/
def negAccReq : UpdateRequest :=
  { playerId := ("p4"), playerName := ("Neg"), role := ("hunted"),
    gameCode := ("neg"), lat := 0, lon := 0, accuracy := some (-5),
    timestamp := 0 }

/-- Two valid update requests for the same `(gameCode, playerId)` pair. -/
def upReq1 : UpdateRequest :=
  { playerId := ("dup"), playerName := ("First"), role := ("hunter"),
    gameCode := ("twice"), lat := 1, lon := 1, accuracy := some 3,
    timestamp := 100 }

/-- The second upsert for the pair of `upReq1`, with different values. -/
def upReq2 : UpdateRequest :=
  { playerId := ("dup"), playerName := ("Second"), role := ("hunted"),
    gameCode := ("twice"), lat := 2, lon := 3, accuracy := some 4,
    timestamp := 200 }

/-- A stored record with timestamp 0, for the retention witness. -/
def rec0 : PlayerData :=
  { playerId := ("p"), playerName := ("Old"), role := ("hunted"),
    gameCode := ("G"), lat := 0, lon := 0, accuracy := 0, timestamp := 0 }

/-- A one-game, one-player store holding `rec0`. -/
def gd0 : GameData := [(("G"), [(("p"), rec0)])]

/-- The hunter's accepted own position at the origin. -/
noncomputable def demoOwn : OwnPos := ⟨0, 0, 10, 0⟩

/-- A hunter session whose own position is `demoOwn`. -/
noncomputable def demoSession : Session :=
  ⟨("me"), ("Hunter H"), ("hunter"), 0, some demoOwn⟩

/-- A hunted snapshot entry at the origin, first in snapshot order. -/
noncomputable def alice : Entry := ⟨("a1"), ("Alice"), ("hunted"), 0, 0, 0⟩

/-- A hunted snapshot entry at the origin, second in snapshot order. -/
noncomputable def bob : Entry := ⟨("b1"), ("Bob"), ("hunted"), 0, 0, 0⟩

/-! ## Map lemmas -/

lemma mapGet_set_self {α : Type} (m : List (String × α)) (k : String) (v : α) :
    mapGet (mapSet m k v) k = some v := by
  induction m with
  | nil => simp [mapSet, mapGet]
  | cons h t ih =>
    obtain ⟨k', v'⟩ := h
    by_cases hk : k' = k
    · simp [mapSet, hk, mapGet]
    · simp [mapSet, hk, mapGet, ih]

lemma mapGet_set_ne {α : Type} (m : List (String × α)) (k k' : String) (v : α)
    (h : ¬ k' = k) : mapGet (mapSet m k v) k' = mapGet m k' := by
  have hne : ¬ k = k' := fun e => h e.symm
  induction m with
  | nil => simp [mapSet, mapGet, hne]
  | cons hd t ih =>
    obtain ⟨a, b⟩ := hd
    by_cases ha : a = k
    · subst ha
      simp [mapSet, mapGet, hne]
    · simp only [mapSet, if_neg ha, mapGet]
      by_cases ha' : a = k'
      · simp [ha']
      · simp [ha', ih]

lemma mapGet_eq_none_of_not_mem {α : Type} (m : List (String × α)) (k : String)
    (h : k ∉ keys m) : mapGet m k = none := by
  induction m with
  | nil => rfl
  | cons hd t ih =>
    obtain ⟨a, b⟩ := hd
    simp only [keys, List.map_cons, List.mem_cons, not_or] at h
    have h1 : ¬ a = k := fun e => h.1 e.symm
    have h2 : k ∉ keys t := h.2
    simp [mapGet, h1, ih h2]

lemma mem_keys_mapSet {α : Type} (m : List (String × α)) (k x : String) (v : α)
    (hx : x ∈ keys (mapSet m k v)) : x ∈ keys m ∨ x = k := by
  induction m with
  | nil =>
    simp only [mapSet, keys, List.map_cons, List.map_nil, List.mem_singleton] at hx
    exact Or.inr hx
  | cons hd t ih =>
    obtain ⟨c, d⟩ := hd
    by_cases hc : c = k
    · simp only [mapSet, if_pos hc, keys, List.map_cons, List.mem_cons] at hx ⊢
      exact Or.inl hx
    · simp only [mapSet, if_neg hc, keys, List.map_cons, List.mem_cons] at hx ⊢
      rcases hx with hx | hx
      · exact Or.inl (Or.inl hx)
      · rcases ih hx with h' | h'
        · exact Or.inl (Or.inr h')
        · exact Or.inr h'

lemma keys_mapSet_nodup {α : Type} (m : List (String × α)) (k : String) (v : α)
    (h : (keys m).Nodup) : (keys (mapSet m k v)).Nodup := by
  induction m with
  | nil => simp [mapSet, keys]
  | cons hd t ih =>
    obtain ⟨a, b⟩ := hd
    simp only [keys, List.map_cons, List.nodup_cons] at h
    by_cases ha : a = k
    · simp only [mapSet, if_pos ha, keys, List.map_cons, List.nodup_cons]
      exact ⟨h.1, h.2⟩
    · simp only [mapSet, if_neg ha, keys, List.map_cons, List.nodup_cons]
      refine ⟨?_, ih h.2⟩
      intro hmem
      rcases mem_keys_mapSet t k a v hmem with h' | h'
      · exact h.1 h'
      · exact ha h'

/-! ## Distance at coinciding points -/

lemma calculateDistance_self (lat lon : ℝ) :
    calculateDistance lat lon lat lon = 0 := by
  unfold calculateDistance atan2
  simp [Real.sqrt_eq_zero]

/-! ## Engine lemmas -/

lemma mem_filterVisible (locs : List Entry) (s : Session) (now : ℤ) (p : Entry) :
    p ∈ filterVisibleOpponents locs s now ↔
      p ∈ locs ∧ ¬ p.playerId = s.playerId ∧ isOpponent s.playerRole p.role ∧
        ¬ now - p.timestamp < POSITION_DELAY := by
  simp [filterVisibleOpponents, List.mem_filter, and_assoc]

open Classical in
lemma processEntry_eq (s : Session) (now : ℤ) (ui : UIState) (p : Entry) :
    processEntry s now ui p =
      if Qualifies s now p then endGame ui ("victory") (captureMsg p) else ui := by
  unfold processEntry
  by_cases h1 : p.playerId = s.playerId
  · rw [if_pos h1, if_neg (show ¬ Qualifies s now p from fun hq => hq.1 h1)]
  rw [if_neg h1]
  by_cases h2 : isOpponent s.playerRole p.role
  swap
  · rw [if_pos h2, if_neg (show ¬ Qualifies s now p from fun hq => h2 hq.2.1)]
  rw [if_neg (not_not_intro h2)]
  by_cases h3 : now - p.timestamp < POSITION_DELAY
  · rw [if_pos h3, if_neg (show ¬ Qualifies s now p from fun hq => hq.2.2.1 h3)]
  rw [if_neg h3]
  by_cases h4 : s.playerRole = ("hunter")
  swap
  · rw [if_neg h4,
      if_neg (show ¬ Qualifies s now p from fun hq => h4 hq.2.2.2.1)]
  rw [if_pos h4]
  cases hlp : s.lastPosition with
  | none =>
    rw [if_neg]
    intro hq
    obtain ⟨-, own, hsome, -⟩ := hq.2.2.2
    rw [hlp] at hsome
    exact Option.noConfusion hsome
  | some own =>
    show (if calculateDistance own.lat own.lon p.lat p.lon ≤ CAPTURE_DISTANCE then
        endGame ui ("victory") (captureMsg p) else ui) = _
    by_cases h5 : calculateDistance own.lat own.lon p.lat p.lon ≤ CAPTURE_DISTANCE
    · rw [if_pos h5, if_pos (show Qualifies s now p from ⟨h1, h2, h3, h4, own, hlp, h5⟩)]
    · rw [if_neg h5, if_neg]
      intro hq
      obtain ⟨-, own', hsome, hd⟩ := hq.2.2.2
      rw [hlp] at hsome
      cases hsome
      exact h5 hd

open Classical in
lemma foldl_victory_iff (s : Session) (now : ℤ) (locs : List Entry) :
    ∀ ui : UIState,
      ((locs.foldl (processEntry s now) ui).endReason = some ("victory") ↔
        ui.endReason = some ("victory") ∨ ∃ p ∈ locs, Qualifies s now p) := by
  induction locs with
  | nil => intro ui; simp
  | cons q rest ih =>
    intro ui
    rw [List.foldl_cons, processEntry_eq]
    by_cases hq : Qualifies s now q
    · rw [if_pos hq, ih]
      simp only [endGame, List.mem_cons]
      constructor
      · intro _; exact Or.inr ⟨q, Or.inl rfl, hq⟩
      · intro _; exact Or.inl trivial
    · rw [if_neg hq, ih]
      simp only [List.mem_cons]
      constructor
      · rintro (h | ⟨p, hp, hqp⟩)
        · exact Or.inl h
        · exact Or.inr ⟨p, Or.inr hp, hqp⟩
      · rintro (h | ⟨p, hp | hp, hqp⟩)
        · exact Or.inl h
        · exact absurd (hp ▸ hqp) hq
        · exact Or.inr ⟨p, hp, hqp⟩

lemma foldl_no_own (s : Session) (now : ℤ) (locs : List Entry)
    (h : s.lastPosition = none) :
    ∀ ui : UIState, locs.foldl (processEntry s now) ui = ui := by
  induction locs with
  | nil => intro ui; rfl
  | cons q rest ih =>
    intro ui
    rw [List.foldl_cons, processEntry_eq, if_neg, ih]
    intro hq
    obtain ⟨-, own, hsome, -⟩ := hq.2.2.2
    rw [h] at hsome
    exact Option.noConfusion hsome

open Classical in
lemma foldl_endMessage (s : Session) (now : ℤ) (locs : List Entry) :
    ∀ ui : UIState,
      (locs.foldl (processEntry s now) ui).endMessage =
        (qualifying s now locs).foldl (fun _ p => some (captureMsg p))
          ui.endMessage := by
  classical
  induction locs with
  | nil => intro ui; simp [qualifying]
  | cons q rest ih =>
    intro ui
    rw [List.foldl_cons, processEntry_eq]
    by_cases hq : Qualifies s now q
    · rw [if_pos hq, ih]
      simp [qualifying, List.filter_cons, hq, endGame]
    · rw [if_neg hq, ih]
      simp [qualifying, List.filter_cons, hq]

lemma foldl_const_last {α β : Type} (f : α → β) (l : List α) :
    ∀ init : Option β,
      l.foldl (fun _ p => some (f p)) init =
        (match l.getLast? with
         | some p => some (f p)
         | none => init) := by
  induction l with
  | nil => intro init; rfl
  | cons a t ih =>
    intro init
    rw [List.foldl_cons, ih]
    cases t with
    | nil => rfl
    | cons b u =>
      rw [List.getLast?_cons_cons]
      cases hgl : (b :: u).getLast? with
      | none => simp [List.getLast?_eq_none_iff] at hgl
      | some p => rfl

/-! ## Worker lemmas -/

lemma handleGetLocations_eq (gd : GameData) (gc : String) :
    handleGetLocations gd gc =
      ((mapGet gd (sanitizeGameCode gc)).getD []).map Prod.snd := by
  unfold handleGetLocations
  cases mapGet gd (sanitizeGameCode gc) <;> rfl

lemma handleUpdateLocation_valid (gd : GameData) (req : UpdateRequest)
    (h : ValidReq req) :
    handleUpdateLocation gd req =
      (UpdateResult.ok (mapSet ((mapGet gd (sanitizeGameCode req.gameCode)).getD [])
          (sanitizePlayerId req.playerId) (recordOf req)).length,
       mapSet gd (sanitizeGameCode req.gameCode)
         (mapSet ((mapGet gd (sanitizeGameCode req.gameCode)).getD [])
           (sanitizePlayerId req.playerId) (recordOf req))) := by
  obtain ⟨h1, h2, h3⟩ := h
  unfold handleUpdateLocation
  rw [if_neg h1, if_neg h2, if_neg (not_not_intro h3)]

lemma filter_values_nomem (m : GameMap) (k : String)
    (hcoh : ∀ e ∈ m, (e.2).playerId = e.1) (hk : k ∉ keys m) :
    (m.map Prod.snd).filter (fun r => decide (r.playerId = k)) = [] := by
  induction m with
  | nil => rfl
  | cons hd t ih =>
    obtain ⟨a, b⟩ := hd
    have hb : b.playerId = a := hcoh (a, b) (List.mem_cons_self _ _)
    simp only [keys, List.map_cons, List.mem_cons, not_or] at hk
    have hbk : ¬ b.playerId = k := by rw [hb]; exact fun e => hk.1 e.symm
    simp [List.filter_cons, hbk,
      ih (fun e he => hcoh e (List.mem_cons_of_mem _ he)) hk.2]

lemma filter_values_set (m : GameMap) (k : String) (v : PlayerData)
    (hnd : (keys m).Nodup) (hcoh : ∀ e ∈ m, (e.2).playerId = e.1)
    (hv : v.playerId = k) :
    ((mapSet m k v).map Prod.snd).filter (fun r => decide (r.playerId = k)) =
      [v] := by
  induction m with
  | nil => simp [mapSet, hv]
  | cons hd t ih =>
    obtain ⟨a, b⟩ := hd
    simp only [keys, List.map_cons, List.nodup_cons] at hnd
    by_cases ha : a = k
    · have ht := filter_values_nomem t k
        (fun e he => hcoh e (List.mem_cons_of_mem _ he)) (ha ▸ hnd.1)
      simp [mapSet, ha, List.filter_cons, hv, ht]
    · have hba : b.playerId = a := hcoh (a, b) (List.mem_cons_self _ _)
      have hbk : ¬ b.playerId = k := by rw [hba]; exact ha
      simp only [mapSet, if_neg ha, List.map_cons, List.filter_cons]
      simp [hbk, ih hnd.2 (fun e he => hcoh e (List.mem_cons_of_mem _ he))]

lemma mapGet_cons_self {α : Type} (a : String) (v : α) (t : List (String × α))
    (k : String) (h : a = k) : mapGet ((a, v) :: t) k = some v := by
  simp [mapGet, h]

lemma mapGet_cons_ne {α : Type} (a : String) (v : α) (t : List (String × α))
    (k : String) (h : ¬ a = k) : mapGet ((a, v) :: t) k = mapGet t k := by
  simp [mapGet, h]

lemma coh_mapSet (m : GameMap) (k : String) (v : PlayerData)
    (hcoh : ∀ e ∈ m, (e.2).playerId = e.1) (hv : v.playerId = k) :
    ∀ e ∈ mapSet m k v, (e.2).playerId = e.1 := by
  induction m with
  | nil =>
    intro e he
    simp only [mapSet, List.mem_singleton] at he
    subst he
    exact hv
  | cons hd t ih =>
    obtain ⟨a, b⟩ := hd
    intro e he
    by_cases ha : a = k
    · simp only [mapSet, if_pos ha, List.mem_cons] at he
      rcases he with he | he
      · subst he; rw [hv, ha]
      · exact hcoh e (List.mem_cons_of_mem _ he)
    · simp only [mapSet, if_neg ha, List.mem_cons] at he
      rcases he with he | he
      · subst he; exact hcoh (a, b) (List.mem_cons_self _ _)
      · exact ih (fun e' he' => hcoh e' (List.mem_cons_of_mem _ he')) e he

lemma keys_cleanGames_sub (gd : GameData) (cutoff : ℤ) (k : String)
    (h : k ∈ keys (cleanGames gd cutoff)) : k ∈ keys gd := by
  simp only [cleanGames, keys] at h ⊢
  rcases List.mem_map.mp h with ⟨g, hg, rfl⟩
  have hg1 := (List.mem_filter.mp hg).1
  rcases List.mem_map.mp hg1 with ⟨g0, hg0, hfg⟩
  exact List.mem_map.mpr ⟨g0, hg0, by rw [← hfg]⟩

lemma mapGet_cleanGames (gd : GameData) (cutoff : ℤ) (k : String)
    (hnd : (keys gd).Nodup) :
    (mapGet (cleanGames gd cutoff) k).getD [] =
      ((mapGet gd k).getD []).filter (fun e => decide (¬ e.2.timestamp < cutoff)) := by
  induction gd with
  | nil => rfl
  | cons g t ih =>
    obtain ⟨gc, ps⟩ := g
    simp only [keys, List.map_cons, List.nodup_cons] at hnd
    have hrec := ih hnd.2
    by_cases hps : ps.filter (fun e => decide (¬ e.2.timestamp < cutoff)) = []
    · have hcg : cleanGames ((gc, ps) :: t) cutoff = cleanGames t cutoff := by
        unfold cleanGames
        rw [List.map_cons, List.filter_cons, if_neg]
        rw [show ((gc, ps.filter (fun e => decide (¬ e.2.timestamp < cutoff))) :
            String × GameMap).2 = ps.filter (fun e => decide (¬ e.2.timestamp < cutoff))
            from rfl, hps]
        decide
      rw [hcg]
      by_cases hk : gc = k
      · have hnone : mapGet (cleanGames t cutoff) k = none := by
          apply mapGet_eq_none_of_not_mem
          intro hmem
          exact hnd.1 (hk ▸ keys_cleanGames_sub t cutoff k hmem)
        rw [hnone, mapGet_cons_self gc ps t k hk]
        simp only [Option.getD_none, Option.getD_some]
        exact hps.symm
      · rw [mapGet_cons_ne gc ps t k hk]
        exact hrec
    · have hcg : cleanGames ((gc, ps) :: t) cutoff =
          (gc, ps.filter (fun e => decide (¬ e.2.timestamp < cutoff))) ::
            cleanGames t cutoff := by
        unfold cleanGames
        rw [List.map_cons, List.filter_cons, if_pos (decide_eq_true hps)]
      rw [hcg]
      by_cases hk : gc = k
      · rw [mapGet_cons_self gc _ (cleanGames t cutoff) k hk,
          mapGet_cons_self gc ps t k hk]
        rfl
      · rw [mapGet_cons_ne gc _ (cleanGames t cutoff) k hk,
          mapGet_cons_ne gc ps t k hk]
        exact hrec

lemma simulate_window (ts : List ℤ) :
    ∀ (m : RateMap) (ip : String) (c : ℕ) (rt : ℤ),
      mapGet m ip = some ⟨c, rt⟩ → (∀ t ∈ ts, t ≤ rt) →
      (simulate m (ts.map (fun t => (ip, t)))).2 =
        (List.range ts.length).map (fun i => decide (c + i < RATE_LIMIT)) := by
  induction ts with
  | nil => intro m ip c rt _ _; rfl
  | cons t rest ih =>
    intro m ip c rt hm hts
    have hnow : ¬ t > rt := not_lt.mpr (hts t (List.mem_cons_self _ _))
    simp only [List.map_cons, simulate]
    rw [List.length_cons, List.range_succ_eq_map, List.map_cons, List.map_map]
    by_cases hc : c ≥ RATE_LIMIT
    · have hstep : checkRateLimit m ip t = (false, m) := by
        simp [checkRateLimit, hm, hnow, hc]
      rw [hstep]
      rw [ih m ip c rt hm (fun u hu => hts u (List.mem_cons_of_mem _ hu))]
      congr 1
      · exact (decide_eq_false (by omega)).symm
      · apply List.map_congr_left
        intro i _
        exact decide_eq_decide.mpr (by omega)
    · have hstep : checkRateLimit m ip t = (true, mapSet m ip ⟨c + 1, rt⟩) := by
        simp [checkRateLimit, hm, hnow, hc]
      rw [hstep]
      rw [ih (mapSet m ip ⟨c + 1, rt⟩) ip (c + 1) rt (mapGet_set_self m ip ⟨c + 1, rt⟩)
        (fun u hu => hts u (List.mem_cons_of_mem _ hu))]
      congr 1
      · exact (decide_eq_true (by omega)).symm
      · apply List.map_congr_left
        intro i _
        exact decide_eq_decide.mpr (by omega)

/-! ## Claim theorems -/

/-- C1: the claim is refuted by the code.  `handleUpdateLocation` stores the
caller-supplied `timestamp` field verbatim (worker.js line 151: `timestamp:
data.timestamp`); the relay's own receipt clock is not even an input of the
handler.  Evaluating the handler at the valid request `treq`, whose body
carries `timestamp = 5`, stores a record whose timestamp is the caller's 5 —
whatever the receipt time was. -/
theorem c1_upsert_stores_client_timestamp :
    mapGet ((mapGet ((handleUpdateLocation [] treq).2)
        (sanitizeGameCode treq.gameCode)).getD [])
      (sanitizePlayerId treq.playerId) = some (recordOf treq)
    ∧ (recordOf treq).timestamp = 5 ∧ treq.timestamp = 5 := by
  decide

/-- C2: `filterVisibleOpponents` returns exactly the snapshot entries that are
not the local player, are strictly opposite-role, and whose age has reached
`POSITION_DELAY`; in particular a younger entry, a self entry, or a same-role
entry is never returned. -/
theorem c2_filterVisibleOpponents_spec (locs : List Entry) (s : Session)
    (now : ℤ) (p : Entry) :
    (p ∈ filterVisibleOpponents locs s now ↔
      p ∈ locs ∧ ¬ p.playerId = s.playerId ∧
        ((s.playerRole = ("hunter") ∧ p.role = ("hunted")) ∨
         (s.playerRole = ("hunted") ∧ p.role = ("hunter"))) ∧
        POSITION_DELAY ≤ now - p.timestamp)
    ∧ (now - p.timestamp < POSITION_DELAY → p ∉ filterVisibleOpponents locs s now)
    ∧ (p.playerId = s.playerId → p ∉ filterVisibleOpponents locs s now)
    ∧ (p.role = s.playerRole → p ∉ filterVisibleOpponents locs s now) := by
  refine ⟨?_, ?_, ?_, ?_⟩
  · rw [mem_filterVisible]
    simp only [isOpponent, not_lt]
  · intro hage hmem
    exact ((mem_filterVisible locs s now p).mp hmem).2.2.2 hage
  · intro hid hmem
    exact ((mem_filterVisible locs s now p).mp hmem).2.1 hid
  · intro hrole hmem
    rcases ((mem_filterVisible locs s now p).mp hmem).2.2.1 with ⟨hs, hp⟩ | ⟨hs, hp⟩
    · have : ("hunter" : String) = ("hunted") := by rw [← hs, ← hrole, hp]
      exact absurd this (by decide)
    · have : ("hunted" : String) = ("hunter") := by rw [← hs, ← hrole, hp]
      exact absurd this (by decide)

/-- C3: one evaluation cycle over a snapshot ends the running session with a
victory outcome iff the session role is hunter, an accepted own position
exists, and some visible opponent is within haversine distance
`CAPTURE_DISTANCE` (the comparison is `≤`, so exactly 50 m captures); with no
own position the cycle leaves the outcome state untouched. -/
theorem c3_evaluateCapture_iff (locs : List Entry) (s : Session) (now : ℤ) :
    ((updateOtherPlayers locs s now activeUI).endReason = some ("victory") ↔
      s.playerRole = ("hunter") ∧ ∃ own, s.lastPosition = some own ∧
        ∃ p ∈ filterVisibleOpponents locs s now,
          calculateDistance own.lat own.lon p.lat p.lon ≤ CAPTURE_DISTANCE)
    ∧ (s.lastPosition = none →
        updateOtherPlayers locs s now activeUI = activeUI) := by
  constructor
  · rw [updateOtherPlayers, foldl_victory_iff]
    simp only [activeUI]
    constructor
    · rintro (h | ⟨p, hmem, h1, h2, h3, h4, own, hsome, hd⟩)
      · exact Option.noConfusion h
      · exact ⟨h4, own, hsome, p,
          (mem_filterVisible locs s now p).mpr ⟨hmem, h1, h2, h3⟩, hd⟩
    · rintro ⟨hrole, own, hsome, p, hpv, hd⟩
      obtain ⟨hmem, h1, h2, h3⟩ := (mem_filterVisible locs s now p).mp hpv
      exact Or.inr ⟨p, hmem, h1, h2, h3, hrole, own, hsome, hd⟩
  · intro h
    exact foldl_no_own s now locs h activeUI

/-- C5: the countdown check fires the timeout outcome iff the elapsed time has
reached `GAME_DURATION`; at elapsed 599 999 ms nothing fires, at 600 000 ms
the timeout fires. -/
theorem c5_evaluateSurvival_iff (startTime now : ℤ) :
    ((updateTimer startTime now activeUI).endReason = some ("timeout") ↔
      GAME_DURATION ≤ now - startTime)
    ∧ updateTimer 0 599999 activeUI = activeUI
    ∧ (updateTimer 0 600000 activeUI).endReason = some ("timeout") := by
  refine ⟨?_, by decide, by decide⟩
  unfold updateTimer
  by_cases h : GAME_DURATION - (now - startTime) ≤ 0
  · rw [if_pos h]
    simp only [endGame]
    constructor
    · intro _; omega
    · intro _; trivial
  · rw [if_neg h]
    simp only [activeUI]
    constructor
    · intro hh; exact Option.noConfusion hh
    · intro hh; exfalso; omega

/-! ## Demo-snapshot lemmas for the multi-capture cycle -/

lemma demo_dist_alice :
    calculateDistance demoOwn.lat demoOwn.lon alice.lat alice.lon ≤
      CAPTURE_DISTANCE := by
  show calculateDistance 0 0 0 0 ≤ CAPTURE_DISTANCE
  rw [calculateDistance_self]
  unfold CAPTURE_DISTANCE
  norm_num

lemma demo_dist_bob :
    calculateDistance demoOwn.lat demoOwn.lon bob.lat bob.lon ≤
      CAPTURE_DISTANCE := by
  show calculateDistance 0 0 0 0 ≤ CAPTURE_DISTANCE
  rw [calculateDistance_self]
  unfold CAPTURE_DISTANCE
  norm_num

lemma qualifies_alice : Qualifies demoSession 200000 alice :=
  ⟨by decide, Or.inl ⟨rfl, rfl⟩, by decide, rfl, demoOwn, rfl, demo_dist_alice⟩

lemma qualifies_bob : Qualifies demoSession 200000 bob :=
  ⟨by decide, Or.inl ⟨rfl, rfl⟩, by decide, rfl, demoOwn, rfl, demo_dist_bob⟩

lemma qualifying_demo :
    qualifying demoSession 200000 [alice, bob] = [alice, bob] := by
  simp [qualifying, List.filter_cons, qualifies_alice, qualifies_bob]

lemma demo_getLast :
    (qualifying demoSession 200000 [alice, bob]).getLast? = some bob := by
  rw [qualifying_demo]
  rfl

lemma demo_endMessage :
    (updateOtherPlayers [alice, bob] demoSession 200000 activeUI).endMessage =
      some (captureMsg bob) := by
  rw [updateOtherPlayers, foldl_endMessage, foldl_const_last, demo_getLast]

/-- C4: the claim is corrected.  When several visible opponents are within
`CAPTURE_DISTANCE` in one cycle, the `forEach` of `updateOtherPlayers` does
not stop at the first: it calls `endGame('victory', ...)` for each of them in
snapshot order, and each call overwrites the end screen, so the outcome shown
names the last such opponent in snapshot order, not the first. -/
theorem c4_capture_names_last (locs : List Entry) (s : Session) (now : ℤ)
    (p : Entry) (h : (qualifying s now locs).getLast? = some p) :
    (updateOtherPlayers locs s now activeUI).endMessage =
      some (captureMsg p) := by
  rw [updateOtherPlayers, foldl_endMessage, foldl_const_last, h]

/-- C4 witness: in the two-opponent demo snapshot both Alice and Bob qualify,
the last is Bob, and the cycle ends showing Bob's capture message. -/
theorem c4_capture_names_last_witness :
    (qualifying demoSession 200000 [alice, bob]).getLast? = some bob ∧
    (updateOtherPlayers [alice, bob] demoSession 200000 activeUI).endMessage =
      some (captureMsg bob) :=
  ⟨demo_getLast, c4_capture_names_last _ _ _ _ demo_getLast⟩

/-- C4 counterexample to the claim as stated: with Alice first and Bob second
in snapshot order and both within range (both appear in `qualifying`), the
cycle's final end message names Bob, not the first qualifying opponent
Alice. -/
theorem c4_counterexample :
    qualifying demoSession 200000 [alice, bob] = [alice, bob] ∧
    (updateOtherPlayers [alice, bob] demoSession 200000 activeUI).endMessage =
      some (captureMsg bob) ∧
    ¬ (updateOtherPlayers [alice, bob] demoSession 200000 activeUI).endMessage =
      some (captureMsg alice) := by
  refine ⟨qualifying_demo, demo_endMessage, ?_⟩
  rw [demo_endMessage]
  decide

/-- C6: an update request whose latitude is outside `[-90, 90]` or whose
longitude is outside `[-180, 180]` is rejected with a validation error and
mutates nothing: the store is returned unchanged and in particular no
partition appears for the request's game code. -/
theorem c6_upsert_invalid_latlon (gd : GameData) (req : UpdateRequest)
    (h : req.lat < -90 ∨ 90 < req.lat ∨ req.lon < -180 ∨ 180 < req.lon) :
    (handleUpdateLocation gd req).2 = gd
    ∧ mapGet (handleUpdateLocation gd req).2 (sanitizeGameCode req.gameCode) =
        mapGet gd (sanitizeGameCode req.gameCode)
    ∧ ∃ msg, (handleUpdateLocation gd req).1 = UpdateResult.validationError msg := by
  unfold handleUpdateLocation
  by_cases h1 : req.lat < -90 ∨ req.lat > 90
  · rw [if_pos h1]; exact ⟨rfl, rfl, _, rfl⟩
  rw [if_neg h1]
  by_cases h2 : req.lon < -180 ∨ req.lon > 180
  · rw [if_pos h2]; exact ⟨rfl, rfl, _, rfl⟩
  rw [if_neg h2]
  by_cases h3 : ¬ (req.role = ("hunter") ∨ req.role = ("hunted"))
  · rw [if_pos h3]; exact ⟨rfl, rfl, _, rfl⟩
  · exfalso
    push_neg at h1 h2
    rcases h with h | h | h | h
    · linarith [h1.1]
    · linarith [h1.2]
    · linarith [h2.1]
    · linarith [h2.2]

/-- C6 witness: the request with latitude 91 satisfies the out-of-range
hypothesis and is rejected without touching the empty store. -/
theorem c6_upsert_invalid_latlon_witness :
    (badReq.lat < -90 ∨ 90 < badReq.lat ∨ badReq.lon < -180 ∨ 180 < badReq.lon)
    ∧ ((handleUpdateLocation [] badReq).2 = []
    ∧ mapGet (handleUpdateLocation [] badReq).2 (sanitizeGameCode badReq.gameCode) =
        mapGet [] (sanitizeGameCode badReq.gameCode)
    ∧ ∃ msg, (handleUpdateLocation [] badReq).1 = UpdateResult.validationError msg) :=
  ⟨by decide, c6_upsert_invalid_latlon [] badReq (by decide)⟩

/-- C7: after two valid upserts for the same `(gameCode, playerId)` into a
well-formed partition, the listing for that game code holds exactly one
record for that player id, and it is the record built from the second
request: `Map.set` overwrites wholesale, no merge. -/
theorem c7_upsert_twice (gd : GameData) (req1 req2 : UpdateRequest)
    (hgc : req2.gameCode = req1.gameCode) (hpid : req2.playerId = req1.playerId)
    (h1 : ValidReq req1) (h2 : ValidReq req2)
    (hwf : PartWF ((mapGet gd (sanitizeGameCode req1.gameCode)).getD [])) :
    (handleGetLocations
        (handleUpdateLocation (handleUpdateLocation gd req1).2 req2).2
        req2.gameCode).filter
      (fun r => decide (r.playerId = sanitizePlayerId req2.playerId)) =
      [recordOf req2] := by
  obtain ⟨hnd, hcoh⟩ := hwf
  have egc : sanitizeGameCode req2.gameCode = sanitizeGameCode req1.gameCode := by
    rw [hgc]
  have epid : sanitizePlayerId req2.playerId = sanitizePlayerId req1.playerId := by
    rw [hpid]
  rw [handleUpdateLocation_valid gd req1 h1, handleUpdateLocation_valid _ req2 h2,
    handleGetLocations_eq, egc, epid]
  simp only [mapGet_set_self, Option.getD_some]
  refine filter_values_set _ _ _ (keys_mapSet_nodup _ _ _ hnd)
    (coh_mapSet _ _ _ hcoh rfl) ?_
  rw [show (recordOf req2).playerId = sanitizePlayerId req2.playerId from rfl, epid]

/-- C7 witness: two concrete upserts for the same pair into the empty store
leave exactly the second record for that player id. -/
theorem c7_upsert_twice_witness :
    upReq2.gameCode = upReq1.gameCode ∧ upReq2.playerId = upReq1.playerId ∧
    ValidReq upReq1 ∧ ValidReq upReq2 ∧
    PartWF ((mapGet ([] : GameData) (sanitizeGameCode upReq1.gameCode)).getD []) ∧
    (handleGetLocations
        (handleUpdateLocation (handleUpdateLocation [] upReq1).2 upReq2).2
        upReq2.gameCode).filter
      (fun r => decide (r.playerId = sanitizePlayerId upReq2.playerId)) =
      [recordOf upReq2] :=
  ⟨rfl, rfl, by decide, by decide, by decide,
   c7_upsert_twice [] upReq1 upReq2 rfl rfl (by decide) (by decide) (by decide)⟩

/-- C8: the rate-limit window admits at most `RATE_LIMIT` requests per source:
61 requests from one source inside one window answer 60 accepts then a
reject; once a source's reset time has elapsed the next request is accepted
again; a check for one source leaves every other source's entry untouched and
depends only on the checked source's own entry; and a rejected request is
answered with the throttling response with the position store unchanged. -/
theorem c8_rate_limit (m m' : RateMap) (ip ip2 : String) (t0 now : ℤ)
    (ts : List ℤ) (c : ℕ) (rt : ℤ) (s : WorkerState) (req : ApiRequest) :
    (mapGet m ip = none → ts.length = RATE_LIMIT →
      (∀ t ∈ ts, t ≤ t0 + 60000) →
      (simulate m ((ip, t0) :: ts.map (fun t => (ip, t)))).2 =
        List.replicate RATE_LIMIT true ++ [false])
    ∧ (mapGet m ip = some ⟨c, rt⟩ → rt < now → (checkRateLimit m ip now).1 = true)
    ∧ (¬ ip2 = ip → mapGet (checkRateLimit m ip now).2 ip2 = mapGet m ip2)
    ∧ (mapGet m ip = mapGet m' ip →
        (checkRateLimit m ip now).1 = (checkRateLimit m' ip now).1)
    ∧ ((checkRateLimit s.rateLimitMap ip now).1 = false →
        (handleRequest s ip now req).1 = ApiResponse.rateLimited ∧
        (handleRequest s ip now req).2.gameData = s.gameData) := by
  refine ⟨?_, ?_, ?_, ?_, ?_⟩
  · intro hnone hlen hts
    have hstep : checkRateLimit m ip t0 = (true, mapSet m ip ⟨1, t0 + 60000⟩) := by
      simp [checkRateLimit, hnone]
    simp only [simulate, hstep]
    rw [simulate_window ts _ ip 1 (t0 + 60000) (mapGet_set_self _ _ _) hts, hlen]
    decide
  · intro hm hrt
    simp [checkRateLimit, hm, hrt]
  · intro hne
    unfold checkRateLimit
    cases hg : mapGet m ip with
    | none => simp [mapGet_set_ne m ip ip2 _ hne]
    | some limit =>
      by_cases hr : now > limit.resetTime
      · simp [hr, mapGet_set_ne m ip ip2 _ hne]
      · by_cases hc : limit.count ≥ RATE_LIMIT
        · simp [hr, hc]
        · simp [hr, hc, mapGet_set_ne m ip ip2 _ hne]
  · intro heq
    unfold checkRateLimit
    rw [heq]
    cases mapGet m' ip with
    | none => rfl
    | some limit =>
      by_cases hr : now > limit.resetTime
      · simp [hr]
      · by_cases hc : limit.count ≥ RATE_LIMIT
        · simp [hr, hc]
        · simp [hr, hc]
  · intro hfalse
    constructor <;> simp [handleRequest, hfalse]

/-- C8 witness: 61 same-source requests at time 0 answer 60 accepts and a
final reject; a source whose reset time 100 lies before now 200 is accepted
again; checking source a leaves source b's entry unchanged; and a rejected
request is answered 429 with the game data untouched. -/
theorem c8_rate_limit_witness :
    ((simulate [] ((("a"), (0 : ℤ)) ::
        (List.replicate 60 (0 : ℤ)).map (fun t => ((("a") : String), t)))).2 =
      List.replicate RATE_LIMIT true ++ [false])
    ∧ (checkRateLimit [(("a"), ⟨3, 100⟩)] ("a") 200).1 = true
    ∧ mapGet (checkRateLimit [(("a"), ⟨3, 100⟩)] ("a") 200).2 ("b") =
        mapGet [(("a"), ⟨3, 100⟩)] ("b")
    ∧ ((handleRequest ⟨gd0, [(("a"), ⟨60, 100000⟩)]⟩ ("a") 50
          (ApiRequest.locations ("G"))).1 = ApiResponse.rateLimited ∧
       (handleRequest ⟨gd0, [(("a"), ⟨60, 100000⟩)]⟩ ("a") 50
          (ApiRequest.locations ("G"))).2.gameData = gd0) := by
  refine ⟨?_, ?_, ?_, ?_⟩
  · exact (c8_rate_limit [] [] ("a") ("b") 0 0 (List.replicate 60 0) 0 0
      ⟨[], []⟩ (ApiRequest.locations ("G"))).1 rfl (by decide) (by decide)
  · exact (c8_rate_limit [(("a"), ⟨3, 100⟩)] [] ("a") ("b") 0 200 [] 3 100
      ⟨[], []⟩ (ApiRequest.locations ("G"))).2.1 rfl (by decide)
  · exact (c8_rate_limit [(("a"), ⟨3, 100⟩)] [] ("a") ("b") 0 200 [] 3 100
      ⟨[], []⟩ (ApiRequest.locations ("G"))).2.2.1 (by decide)
  · exact (c8_rate_limit [] [] ("a") ("b") 0 50 [] 0 0
      ⟨gd0, [(("a"), ⟨60, 100000⟩)]⟩ (ApiRequest.locations ("G"))).2.2.2.2
      (by decide)

/-- C9: the eviction sweep keeps exactly the records younger than
`MAX_POSITION_AGE` before any listing can see them: after the sweep a record
is listed iff it was stored and its timestamp is not older than the cutoff;
no empty game partition survives the sweep; a record stored with timestamp T
is still listed when swept at T + 14 min and never listed when swept at
T + 16 min; and on the request path the sweep runs before the listing. -/
theorem c9_retention (gd : GameData) (rl : RateMap) (now : ℤ) (gc : String)
    (r : PlayerData) (s : WorkerState) (ip : String)
    (hnd : (keys gd).Nodup) :
    (r ∈ handleGetLocations (cleanOldData gd rl now).1 gc ↔
      r ∈ handleGetLocations gd gc ∧ ¬ r.timestamp < now - MAX_POSITION_AGE)
    ∧ (∀ g ∈ (cleanOldData gd rl now).1, ¬ g.2 = [])
    ∧ (r ∈ handleGetLocations gd gc →
        r ∈ handleGetLocations (cleanOldData gd rl (r.timestamp + 840000)).1 gc)
    ∧ r ∉ handleGetLocations (cleanOldData gd rl (r.timestamp + 960000)).1 gc
    ∧ ((checkRateLimit s.rateLimitMap ip now).1 = true →
        (handleRequest s ip now (ApiRequest.locations gc)).1 =
          ApiResponse.okLocations
            (handleGetLocations
              (cleanOldData s.gameData
                (checkRateLimit s.rateLimitMap ip now).2 now).1 gc)) := by
  have key : ∀ n : ℤ,
      r ∈ handleGetLocations (cleanOldData gd rl n).1 gc ↔
        r ∈ handleGetLocations gd gc ∧ ¬ r.timestamp < n - MAX_POSITION_AGE := by
    intro n
    rw [handleGetLocations_eq, handleGetLocations_eq]
    show r ∈ ((mapGet (cleanGames gd (n - MAX_POSITION_AGE))
        (sanitizeGameCode gc)).getD []).map Prod.snd ↔ _
    rw [mapGet_cleanGames gd _ (sanitizeGameCode gc) hnd]
    simp only [List.mem_map, List.mem_filter]
    constructor
    · rintro ⟨e, ⟨he, hkeep⟩, rfl⟩
      exact ⟨⟨e, he, rfl⟩, by simpa using hkeep⟩
    · rintro ⟨⟨e, he, rfl⟩, hts⟩
      exact ⟨e, ⟨he, by simpa using hts⟩, rfl⟩
  refine ⟨key now, ?_, ?_, ?_, ?_⟩
  · intro g hg
    have := (List.mem_filter.mp hg).2
    exact of_decide_eq_true this
  · intro hmem
    exact (key (r.timestamp + 840000)).mpr ⟨hmem, by unfold MAX_POSITION_AGE; omega⟩
  · intro hmem
    have := ((key (r.timestamp + 960000)).mp hmem).2
    unfold MAX_POSITION_AGE at this
    omega
  · intro htrue
    simp [handleRequest, htrue]

/-- C9 witness: the one-record store `gd0` (record timestamp 0) still lists
the record when swept at 840 000 ms = 14 min and never at 960 000 ms =
16 min. -/
theorem c9_retention_witness :
    (keys gd0).Nodup ∧
    ((rec0 ∈ handleGetLocations (cleanOldData gd0 [] 840000).1 ("G") ↔
      rec0 ∈ handleGetLocations gd0 ("G") ∧
        ¬ rec0.timestamp < 840000 - MAX_POSITION_AGE)
    ∧ (∀ g ∈ (cleanOldData gd0 [] 840000).1, ¬ g.2 = [])
    ∧ (rec0 ∈ handleGetLocations gd0 ("G") →
        rec0 ∈ handleGetLocations
          (cleanOldData gd0 [] (rec0.timestamp + 840000)).1 ("G"))
    ∧ rec0 ∉ handleGetLocations
        (cleanOldData gd0 [] (rec0.timestamp + 960000)).1 ("G")
    ∧ ((checkRateLimit (⟨gd0, []⟩ : WorkerState).rateLimitMap ("ip") 840000).1 = true →
        (handleRequest ⟨gd0, []⟩ ("ip") 840000 (ApiRequest.locations ("G"))).1 =
          ApiResponse.okLocations
            (handleGetLocations
              (cleanOldData (⟨gd0, []⟩ : WorkerState).gameData
                (checkRateLimit (⟨gd0, []⟩ : WorkerState).rateLimitMap
                  ("ip") 840000).2 840000).1 ("G")))) :=
  ⟨by decide, c9_retention gd0 [] 840000 ("G") rec0 ⟨gd0, []⟩ ("ip") (by decide)⟩

/-- C10: the claim is corrected.  `accuracy: data.accuracy || 0` (worker.js
line 150) replaces only a missing (or zero) accuracy by 0; any other number,
including a negative one, is stored unchanged, so an absent accuracy is
stored as 0 but non-negativity is not enforced. -/
theorem c10_accuracy_amended (gd : GameData) (req : UpdateRequest)
    (h : ValidReq req) :
    mapGet ((mapGet ((handleUpdateLocation gd req).2)
        (sanitizeGameCode req.gameCode)).getD [])
      (sanitizePlayerId req.playerId) = some (recordOf req)
    ∧ (recordOf req).accuracy = jsOr req.accuracy 0
    ∧ (req.accuracy = none → (recordOf req).accuracy = 0) := by
  refine ⟨?_, rfl, ?_⟩
  · rw [handleUpdateLocation_valid gd req h]
    simp only [mapGet_set_self, Option.getD_some]
  · intro h0
    simp [recordOf, jsOr, h0]

/-- C10 counterexample to the claim as stated: the valid request `negAccReq`
carries `accuracy = -5`; since `-5` is truthy, `data.accuracy || 0` keeps it,
and the stored record's accuracy is the negative `-5`. -/
theorem c10_negative_accuracy_counterexample :
    mapGet ((mapGet ((handleUpdateLocation [] negAccReq).2)
        (sanitizeGameCode negAccReq.gameCode)).getD [])
      (sanitizePlayerId negAccReq.playerId) = some (recordOf negAccReq)
    ∧ (recordOf negAccReq).accuracy = -5
    ∧ (recordOf negAccReq).accuracy < 0 := by
  decide

/-- C10 witness: the valid request `vreq` has no accuracy field; the stored
record's accuracy is 0. -/
theorem c10_accuracy_amended_witness :
    ValidReq vreq ∧
    (mapGet ((mapGet ((handleUpdateLocation [] vreq).2)
        (sanitizeGameCode vreq.gameCode)).getD [])
      (sanitizePlayerId vreq.playerId) = some (recordOf vreq)
    ∧ (recordOf vreq).accuracy = jsOr vreq.accuracy 0
    ∧ (vreq.accuracy = none → (recordOf vreq).accuracy = 0)) :=
  ⟨by decide, c10_accuracy_amended [] vreq (by decide)⟩

end Hunters
